import Mathlib

/-!
Shallow embedding of the visual-novel engine in `main.py`:
script loading (`Script.__init__`), background-key resolution
(`VNEngine._resolve_bg_path_from_node`), the `"END"` sentinel
(`VNEngine._set_virtual_end`), node transitions
(`VNEngine._transition_to_node`, `VNEngine.goto`), node activation
(`VNEngine.next_step`), the typewriter (`VNEngine._start_typing`,
`VNEngine._update_typing`) and the speaker bounce
(`VNEngine._start_bounce_if_needed`).

The YAML values that the engine reads are modelled with explicit
option/sum types; a raised Python exception is modelled as
`Except.error`.  Frame-time arithmetic is modelled over `ℚ`.
-/

/-- One on-stage character entry (an element of a node's `ch` list). -/
structure CharEntry where
  name : Option String := none
  pos : Option String := none
  expression : Option String := none
deriving DecidableEq

/-- One entry of a choice node's `choices` list. -/
structure ChoiceOpt where
  text : Option String := none
  jump : Option String := none
  goto : Option String := none
deriving DecidableEq

/-- The `choices` field of a node: absent, present but not a list, or a list. -/
inductive ChoicesField where
  | absent
  | notList
  | items (l : List ChoiceOpt)
deriving DecidableEq

/-- The body of one script node (the YAML mapping, minus its `id` key). -/
structure NodeBody where
  type : Option String := none
  bg : Option String := none
  speaker : Option String := none
  text : Option String := none
  next : Option String := none
  choices : ChoicesField := ChoicesField.absent
  goto_minigame : Option Int := none
  ch : Option (List CharEntry) := none
deriving DecidableEq

/-- A raw entry of the document's `nodes` list: either not a mapping, or a
mapping with an optional `id` key and the remaining fields. -/
inductive RawNode where
  | notDict
  | dict (id : Option String) (body : NodeBody)
deriving DecidableEq

/-- The `nodes` field of the raw document. -/
inductive NodesField where
  | absent
  | notList
  | items (l : List RawNode)
deriving DecidableEq

/-- The raw YAML document: `meta.start` plus the `nodes` field. -/
structure RawDoc where
  meta_start : Option String := none
  nodes : NodesField := NodesField.absent
deriving DecidableEq

/-- Python dict assignment `d[k] = v`: replace the binding if the key is
present, otherwise append it. -/
def setKey (l : List (String × NodeBody)) (k : String) (v : NodeBody) :
    List (String × NodeBody) :=
  match l with
  | [] => [(k, v)]
  | (k0, v0) :: rest => if k0 = k then (k, v) :: rest else (k0, v0) :: setKey rest k v

/-- Python dict lookup `d.get(k)`. -/
def lookupKey (l : List (String × NodeBody)) (k : String) : Option NodeBody :=
  match l with
  | [] => none
  | (k0, v0) :: rest => if k0 = k then some v0 else lookupKey rest k

/-- Python `k in d`. -/
def hasKey (l : List (String × NodeBody)) (k : String) : Bool :=
  (lookupKey l k).isSome

/-- The node-table construction loop of `Script.__init__`: each entry must be
a mapping carrying an `id`; entries are inserted left to right (a later
duplicate id overwrites an earlier one).  `none` models the raised
`ValueError`. -/
def buildTable (l : List RawNode) (acc : List (String × NodeBody)) :
    Option (List (String × NodeBody)) :=
  match l with
  | [] => some acc
  | RawNode.notDict :: _ => none
  | RawNode.dict none _ :: _ => none
  | RawNode.dict (some i) b :: rest => buildTable rest (setKey acc i b)

/-- `nodes[0].get("id") if nodes else ""`, the fallback start id. -/
def firstId (l : List RawNode) : String :=
  match l with
  | RawNode.dict (some i) _ :: _ => i
  | _ => ""

/-- Python `a or b` for an optional string `a` (`None` and `""` are falsy). -/
def pyOr (a : Option String) (b : String) : String :=
  match a with
  | some s => if s = "" then b else s
  | none => b

/-- The loaded script: node table plus start id. -/
structure ScriptModel where
  nodes : List (String × NodeBody)
  start_id : String
deriving DecidableEq

/-- `Script.__init__`: requires `nodes` to be a list, every entry to be a
mapping carrying an `id`, and the resolved start id to be present in the
node table.  The `next`, `jump` and `choices` fields are not inspected. -/
def loadScript (raw : RawDoc) : Except String ScriptModel :=
  match raw.nodes with
  | NodesField.absent => Except.error "script_draft.yaml 必須有 nodes: 且為 list"
  | NodesField.notList => Except.error "script_draft.yaml 必須有 nodes: 且為 list"
  | NodesField.items l =>
    match buildTable l [] with
    | none => Except.error "nodes 裡有項目缺少 id"
    | some table =>
      let start_id := pyOr raw.meta_start (firstId l)
      if hasKey table start_id then Except.ok ⟨table, start_id⟩
      else Except.error ("start id 不存在：" ++ start_id)

/-- Python `s.strip()`: drop leading and trailing whitespace. -/
def pyStrip (s : String) : String :=
  String.mk (((s.toList.dropWhile Char.isWhitespace).reverse.dropWhile
    Char.isWhitespace).reverse)

/-- Python `s.upper()`. -/
def pyUpper (s : String) : String := String.mk (s.toList.map Char.toUpper)

/-- Python `s.lower()`. -/
def pyLower (s : String) : String := String.mk (s.toList.map Char.toLower)

/-- Python `s.endswith(suffix)`: the last `len(suffix)` characters equal it. -/
def pyEndsWith (s suffix : String) : Bool :=
  s.toList.drop (s.toList.length - suffix.toList.length) == suffix.toList

/-- Python `s.replace("\\", "/")` (the pattern is a single character). -/
def pyReplaceBackslash (s : String) : String :=
  String.mk (s.toList.map (fun c => if c = '\\' then '/' else c))

/-- Python `s[:n]`. -/
def pyTake (s : String) (n : Nat) : String := String.mk (s.toList.take n)

/-- The image-extension suffixes recognised by the background resolver. -/
def imageExts : List String := [".png", ".jpg", ".jpeg", ".webp"]

/-- `"/" in bg_key or bg_key.lower().endswith((".png", ".jpg", ".jpeg", ".webp"))`. -/
def looksLikePath (s : String) : Bool :=
  s.toList.contains '/' || imageExts.any (fun e => pyEndsWith (pyLower s) e)

/-- `VNEngine._resolve_bg_path_from_node`: `None` for a falsy `bg`; a
path-like key is used verbatim with backslashes normalised; any other key
becomes `bg/<key>.png`. -/
def _resolve_bg_path_from_node (node : NodeBody) : Option String :=
  match node.bg with
  | none => none
  | some bg_key =>
    if bg_key = "" then none
    else if looksLikePath bg_key then some (pyReplaceBackslash bg_key)
    else some ("bg/" ++ bg_key ++ ".png")

/-- The fixed terminal text of the synthesized end node. -/
def END_TEXT : String := "THE END（按 ESC 離開）"

/-- The node inserted by `VNEngine._set_virtual_end`. -/
def virtualEndNode : NodeBody :=
  { type := some "end", text := some END_TEXT }

/-- `VNEngine._set_virtual_end`: insert the sentinel under the key `"__END__"`. -/
def _set_virtual_end (nodes : List (String × NodeBody)) : List (String × NodeBody) :=
  setKey nodes "__END__" virtualEndNode

/-- The target-resolution step shared by `VNEngine._go_to_node` and
`VNEngine._transition_to_node`: a known id is used as is; an unknown id
whose stripped upper-case form is `"END"` synthesizes the sentinel; any
other unknown id raises `KeyError`. -/
def resolveTargetId (nodes : List (String × NodeBody)) (target : String) :
    Except String (List (String × NodeBody) × String) :=
  if hasKey nodes target then Except.ok (nodes, target)
  else if pyUpper (pyStrip target) = "END" then Except.ok (_set_virtual_end nodes, "__END__")
  else Except.error ("找不到節點：" ++ target)

/-- Observable engine effects, in program order. -/
inductive Effect where
  | fadeOut
  | goTo (target : String)
  | invokeMinigame (mg_id : String)
  | transitionTo (target : String) (force : Bool)
  | fadeIn
deriving DecidableEq

/-- `VNEngine._transition_to_node`: resolve the target, compare the resolved
backgrounds of the current node and the target, and either run
`fade-out, node swap, fade-in` or a bare node swap.  The node swap
(`_go_to_node`, i.e. `goto` + `next_step`) is recorded as an effect. -/
def _transition_to_node (nodes : List (String × NodeBody)) (cur_id target : String)
    (force : Bool) : Except String (List (String × NodeBody) × List Effect) :=
  match resolveTargetId nodes target with
  | Except.error e => Except.error e
  | Except.ok (nodes2, target_id) =>
    match lookupKey nodes2 cur_id with
    | none => Except.error ("找不到節點：" ++ cur_id)
    | some cur_node =>
      match lookupKey nodes2 target_id with
      | none => Except.error ("找不到節點：" ++ target_id)
      | some next_node =>
        let do_fade := force ||
          (_resolve_bg_path_from_node cur_node != _resolve_bg_path_from_node next_node)
        if do_fade then
          Except.ok (nodes2, [Effect.fadeOut, Effect.goTo target_id, Effect.fadeIn])
        else Except.ok (nodes2, [Effect.goTo target_id])

/-- The node-table component of one resolution of the target `"END"`. -/
def resolveEndStep (nodes : List (String × NodeBody)) : List (String × NodeBody) :=
  match resolveTargetId nodes "END" with
  | Except.ok (nodes2, _) => nodes2
  | Except.error _ => nodes

/-- The mutable presentation state of `VNEngine`. -/
structure EngineState where
  node_id : String
  bg_path : Option String
  current_name : String
  current_text : String
  waiting_input : Bool
  current_chars : List CharEntry
  _full_text : String
  _shown_len : Nat
  _typing : Bool
  _type_acc : ℚ
  _bounce_name : Option String
  _bounce_t : ℚ
  choice_active : Bool
  choice_prompt : String
  choice_options : List ChoiceOpt
  choice_hover : Int
deriving DecidableEq

/-- `VNEngine.__init__`: the initial presentation state. -/
def initState (start_id : String) : EngineState :=
  { node_id := start_id
    bg_path := none
    current_name := ""
    current_text := ""
    waiting_input := false
    current_chars := []
    _full_text := ""
    _shown_len := 0
    _typing := false
    _type_acc := 0
    _bounce_name := none
    _bounce_t := 0
    choice_active := false
    choice_prompt := ""
    choice_options := []
    choice_hover := -1 }

/-- `VNEngine.goto` (body): swap the current node id and reset the
presentation state.  `bg_path` is not touched. -/
def gotoState (st : EngineState) (node_id : String) : EngineState :=
  { st with
    node_id := node_id
    current_name := ""
    current_text := ""
    waiting_input := false
    choice_active := false
    choice_prompt := ""
    choice_options := []
    choice_hover := -1
    current_chars := []
    _full_text := ""
    _shown_len := 0
    _typing := false
    _type_acc := 0
    _bounce_name := none
    _bounce_t := 0 }

/-- `VNEngine.goto` with its membership guard (`KeyError` on an unknown id). -/
def goto (nodes : List (String × NodeBody)) (st : EngineState) (node_id : String) :
    Except String EngineState :=
  if hasKey nodes node_id then Except.ok (gotoState st node_id)
  else Except.error ("找不到節點：" ++ node_id)

/-- The global reveal rate `TYPE_SPEED_CHARS_PER_SEC`. -/
def TYPE_SPEED_CHARS_PER_SEC : ℚ := 40

/-- `VNEngine._start_typing`. -/
def _start_typing (st : EngineState) (full_text : String) : EngineState :=
  { st with
    _full_text := full_text
    _shown_len := 0
    _typing := true
    _type_acc := 0
    current_text := "" }

/-- Python `int()` applied to a rational: truncation toward zero. -/
def pyInt (q : ℚ) : Int := if 0 ≤ q then ⌊q⌋ else ⌈q⌉

/-- The body of `VNEngine._update_typing` after the accumulator update:
`acc` is the updated `_type_acc` and `add` the truncated character count
`int(acc * rate)`. -/
def _update_typing_core (rate : ℚ) (st : EngineState) (acc : ℚ) (add : Int) :
    EngineState :=
  if 0 < add then
    { st with
      _type_acc := acc - (add : ℚ) / rate
      _shown_len := min st._full_text.length (st._shown_len + add.toNat)
      current_text := pyTake st._full_text
        (min st._full_text.length (st._shown_len + add.toNat))
      _typing := decide
        (min st._full_text.length (st._shown_len + add.toNat) < st._full_text.length) }
  else { st with _type_acc := acc }

/-- `VNEngine._update_typing`, with the reveal rate as an explicit
parameter (the engine always passes `TYPE_SPEED_CHARS_PER_SEC`). -/
def _update_typing_at (rate : ℚ) (st : EngineState) (dt : ℚ) : EngineState :=
  if st._typing then
    _update_typing_core rate st (st._type_acc + dt) (pyInt ((st._type_acc + dt) * rate))
  else st

/-- `VNEngine._update_typing` at the engine's fixed rate. -/
def _update_typing : EngineState → ℚ → EngineState :=
  _update_typing_at TYPE_SPEED_CHARS_PER_SEC

/-- `VNEngine._start_bounce_if_needed`. -/
def _start_bounce_if_needed (st : EngineState) : EngineState :=
  let spk := pyStrip st.current_name
  if spk = "" ∨ pyUpper spk = "NARRATOR" then
    { st with _bounce_name := none, _bounce_t := 0 }
  else if st.current_chars.any (fun c => pyStrip (c.name.getD "") == spk) then
    { st with _bounce_name := some spk, _bounce_t := 0 }
  else { st with _bounce_name := none, _bounce_t := 0 }

/-- `str(node.get("type", "dialogue"))`. -/
def nodeKind (node : NodeBody) : String := node.type.getD "dialogue"

/-- The `bg` assignment at the top of `VNEngine.next_step`: a truthy `bg`
overwrites `bg_path`; a falsy or missing one leaves it unchanged. -/
def applyBg (node : NodeBody) (st : EngineState) : EngineState :=
  match node.bg with
  | none => st
  | some bg_key =>
    if bg_key = "" then st
    else if looksLikePath bg_key then { st with bg_path := some bg_key }
    else { st with bg_path := some ("bg/" ++ bg_key ++ ".png") }

/-- The `goto` → `jump` aliasing applied to each choice option. -/
def normalizeOpt (o : ChoiceOpt) : ChoiceOpt :=
  match o.jump, o.goto with
  | none, some g => { o with jump := some g }
  | _, _ => o

/-- `mg_map = {1: "mg1", 2: "mg2", 3: "mg3"}`. -/
def mg_map (k : Int) : Option String :=
  if k = 1 then some "mg1" else if k = 2 then some "mg2"
  else if k = 3 then some "mg3" else none

/-- `VNEngine.next_step`, with the invoked minigame's boolean result as an
oracle parameter `mgResult` (the value bound to `_passed` when a minigame
runs).  Returns the updated state plus the emitted effects; `error` models
a raised exception. -/
def next_step (nodes : List (String × NodeBody)) (mgResult : Bool) (st : EngineState) :
    Except String (EngineState × List Effect) :=
  match lookupKey nodes st.node_id with
  | none => Except.error ("找不到節點：" ++ st.node_id)
  | some node =>
    let t := nodeKind node
    let st1 := applyBg node { st with current_chars := node.ch.getD [] }
    if t = "end" then
      let st2 := _start_typing { st1 with current_name := "" } (node.text.getD END_TEXT)
      Except.ok (_start_bounce_if_needed
        { st2 with waiting_input := true, choice_active := false }, [])
    else
      match node.goto_minigame with
      | some mg =>
        match mg_map mg with
        | none => Except.error "未知 goto_minigame（只支援 1/2/3）"
        | some mg_id =>
          let _passed := mgResult
          match node.next with
          | some nxt =>
            if nxt = "" then
              Except.ok (st1, [Effect.fadeOut, Effect.invokeMinigame mg_id, Effect.fadeIn])
            else
              Except.ok (st1, [Effect.fadeOut, Effect.invokeMinigame mg_id,
                Effect.transitionTo nxt true])
          | none =>
            Except.ok (st1, [Effect.fadeOut, Effect.invokeMinigame mg_id, Effect.fadeIn])
      | none =>
        if t = "dialogue" then
          let st2 := _start_typing { st1 with current_name := node.speaker.getD "" }
            (node.text.getD "")
          Except.ok (_start_bounce_if_needed
            { st2 with waiting_input := true, choice_active := false }, [])
        else if t = "choice" then
          let st2 := { st1 with
            current_name := node.speaker.getD ""
            choice_prompt := node.text.getD "請選擇：" }
          match node.choices with
          | ChoicesField.items opts =>
            if opts = [] then
              Except.error ("choice 節點 " ++ st.node_id ++ " choices 必須是 list 且不可為空")
            else
              let st3 := _start_typing { st2 with
                choice_options := opts.map normalizeOpt
                choice_active := true
                waiting_input := true } ""
              Except.ok (_start_bounce_if_needed st3, [])
          | _ => Except.error ("choice 節點 " ++ st.node_id ++ " choices 必須是 list 且不可為空")
        else Except.error ("不支援的節點 type：" ++ t)

/-- A node table in which a script author has defined an ordinary dialogue
node under the reserved id `"END"`. -/
def endShadowNode : NodeBody := { type := some "dialogue", text := some "not the end" }

/-- The table containing `endShadowNode` under the id `"END"`. -/
def endShadowTable : List (String × NodeBody) := [("s", {}), ("END", endShadowNode)]

/-- Iterated resolutions of the literal `"END"` target (the node-table
component of each resolution feeds the next one). -/
def resolveEndIter (nodes : List (String × NodeBody)) : Nat → List (String × NodeBody)
  | 0 => nodes
  | k + 1 => resolveEndStep (resolveEndIter nodes k)

/-- The typewriter invariant after total elapsed typing time `T`: while
`_typing` is set, the shown length equals `⌊rate·T⌋` and the accumulator
holds exactly the unconverted remainder `T - shown/rate`; once `_typing`
has been cleared, the whole text is shown and `⌊rate·T⌋` has reached its
length.  The shown length never exceeds the text length. -/
def TypingInv (rate T : ℚ) (st : EngineState) : Prop :=
  st._shown_len ≤ st._full_text.length ∧
  (st._typing = true →
    (st._shown_len : ℤ) = ⌊rate * T⌋ ∧
    st._type_acc = T - (st._shown_len : ℚ) / rate) ∧
  (st._typing = false →
    st._shown_len = st._full_text.length ∧
    (st._full_text.length : ℤ) ≤ ⌊rate * T⌋)

/-- The sequence of typewriter states produced by repeatedly applying
`_update_typing_at` to a list of frame deltas, initial state included. -/
def typingStates (rate : ℚ) (st : EngineState) : List ℚ → List EngineState
  | [] => [st]
  | d :: ds => st :: typingStates rate (_update_typing_at rate st d) ds

theorem lookupKey_setKey_self (l : List (String × NodeBody)) (k : String) (v : NodeBody) :
    lookupKey (setKey l k v) k = some v := by
  induction l with
  | nil => simp [setKey, lookupKey]
  | cons hd tl ih =>
    obtain ⟨k0, v0⟩ := hd
    by_cases h : k0 = k
    · simp [setKey, h, lookupKey]
    · simp [setKey, h, lookupKey, ih]

theorem lookupKey_setKey_ne (l : List (String × NodeBody)) (k k' : String) (v : NodeBody)
    (h : k' ≠ k) : lookupKey (setKey l k v) k' = lookupKey l k' := by
  induction l with
  | nil => simp [setKey, lookupKey, Ne.symm h]
  | cons hd tl ih =>
    obtain ⟨k0, v0⟩ := hd
    by_cases h0 : k0 = k
    · subst h0
      simp [setKey, lookupKey, Ne.symm h]
    · simp [setKey, h0, lookupKey, ih]

theorem setKey_setKey (l : List (String × NodeBody)) (k : String) (v : NodeBody) :
    setKey (setKey l k v) k v = setKey l k v := by
  induction l with
  | nil => simp [setKey]
  | cons hd tl ih =>
    obtain ⟨k0, v0⟩ := hd
    by_cases h0 : k0 = k
    · simp [setKey, h0]
    · simp [setKey, h0, ih]

/-- C1 (fade necessity rule): for a pair of nodes both present in the node
table, `_transition_to_node` with `force = false` runs the
fade-out / node-swap / fade-in sequence exactly when the resolved
background keys of the current node and the target differ (a node without
a background resolves to `none`, which is equal only to itself), and with
`force = true` it always runs the fade sequence. -/
theorem fade_necessity_rule (nodes : List (String × NodeBody)) (cur tgt : String)
    (cn tn : NodeBody) (hc : lookupKey nodes cur = some cn)
    (ht : lookupKey nodes tgt = some tn) :
    (_resolve_bg_path_from_node cn ≠ _resolve_bg_path_from_node tn →
      _transition_to_node nodes cur tgt false =
        Except.ok (nodes, [Effect.fadeOut, Effect.goTo tgt, Effect.fadeIn])) ∧
    (_resolve_bg_path_from_node cn = _resolve_bg_path_from_node tn →
      _transition_to_node nodes cur tgt false = Except.ok (nodes, [Effect.goTo tgt])) ∧
    _transition_to_node nodes cur tgt true =
      Except.ok (nodes, [Effect.fadeOut, Effect.goTo tgt, Effect.fadeIn]) := by
  have hk : hasKey nodes tgt = true := by simp [hasKey, ht]
  have hres : resolveTargetId nodes tgt = Except.ok (nodes, tgt) := by
    simp [resolveTargetId, hk]
  refine ⟨?_, ?_, ?_⟩
  · intro hne
    simp [_transition_to_node, hres, hc, ht, bne_iff_ne, hne]
  · intro heq
    simp [_transition_to_node, hres, hc, ht, heq]
  · simp [_transition_to_node, hres, hc, ht]

/-- Witness for C1: a concrete two-node table whose backgrounds differ. -/
theorem fade_necessity_rule_witness :
    _transition_to_node [("a", { bg := some "room" }), ("b", {})] "a" "b" false =
      Except.ok ([("a", { bg := some "room" }), ("b", {})],
        [Effect.fadeOut, Effect.goTo "b", Effect.fadeIn]) :=
  (fade_necessity_rule [("a", { bg := some "room" }), ("b", {})] "a" "b"
    { bg := some "room" } {} (by rfl) (by rfl)).1 (by decide)

/-- C6 counterexample: when the node table itself contains a node with id
`"END"`, transitioning to the literal target `"END"` activates that node —
which here has kind `dialogue`, not `end`, and a different text — so the
unconditional claim fails. -/
theorem end_literal_shadowed_counterexample :
    _transition_to_node endShadowTable "s" "END" false =
      Except.ok (endShadowTable, [Effect.goTo "END"]) ∧
    lookupKey endShadowTable "END" = some endShadowNode ∧
    nodeKind endShadowNode ≠ "end" ∧
    endShadowNode.text ≠ some END_TEXT :=
  ⟨by rfl, by rfl, by decide, by decide⟩

/-- C6 as amended: provided the node table has no node with id `"END"`,
resolving the literal target `"END"` never raises, synthesizes the sentinel,
which has kind `end` and the fixed terminal text, and any positive number
of repeated resolutions leaves the node table with the same single
sentinel entry. -/
theorem end_sentinel_idempotent (nodes : List (String × NodeBody))
    (h : hasKey nodes "END" = false) :
    resolveTargetId nodes "END" = Except.ok (_set_virtual_end nodes, "__END__") ∧
    lookupKey (_set_virtual_end nodes) "__END__" = some virtualEndNode ∧
    nodeKind virtualEndNode = "end" ∧
    virtualEndNode.text = some END_TEXT ∧
    ∀ k : Nat, 0 < k → resolveEndIter nodes k = _set_virtual_end nodes := by
  have hends : pyUpper (pyStrip "END") = "END" := by decide
  have h1 : resolveTargetId nodes "END" = Except.ok (_set_virtual_end nodes, "__END__") := by
    simp [resolveTargetId, h, hends]
  have hkeep : hasKey (_set_virtual_end nodes) "END" = false := by
    unfold _set_virtual_end
    unfold hasKey at h ⊢
    rw [lookupKey_setKey_ne _ _ _ _ (by decide)]
    exact h
  have h2 : resolveTargetId (_set_virtual_end nodes) "END" =
      Except.ok (_set_virtual_end (_set_virtual_end nodes), "__END__") := by
    simp [resolveTargetId, hkeep, hends]
  have hidem : _set_virtual_end (_set_virtual_end nodes) = _set_virtual_end nodes :=
    setKey_setKey _ _ _
  refine ⟨h1, lookupKey_setKey_self _ _ _, by decide, by rfl, ?_⟩
  intro k hk
  induction k with
  | zero => omega
  | succ n ih =>
    cases Nat.eq_zero_or_pos n with
    | inl h0 =>
      subst h0
      simp [resolveEndIter, resolveEndStep, h1]
    | inr hpos =>
      have hn := ih hpos
      simp [resolveEndIter, hn, resolveEndStep, h2, hidem]

/-- Witness for C6 (amended) on a one-node table. -/
theorem end_sentinel_idempotent_witness :
    resolveTargetId [("s", {})] "END" =
      Except.ok ([("s", {}), ("__END__", virtualEndNode)], "__END__") ∧
    resolveEndIter [("s", {})] 3 = [("s", {}), ("__END__", virtualEndNode)] := by
  have h := end_sentinel_idempotent [("s", {})] (by rfl)
  exact ⟨h.1, by rw [h.2.2.2.2 3 (by norm_num)]; rfl⟩

/-- C7: a document whose nodes are well-formed mappings with ids and whose
start id resolves loads successfully even though some node's `next` names
an id `z` that is absent from the table and is not the `"END"` escape; the
`KeyError` surfaces only when a transition resolves `z`. -/
theorem dangling_next_lazy_error (raw : RawDoc) (l : List RawNode)
    (table : List (String × NodeBody)) (z : String)
    (hn : raw.nodes = NodesField.items l)
    (hb : buildTable l [] = some table)
    (hs : hasKey table (pyOr raw.meta_start (firstId l)) = true)
    (_hdangling : ∃ p ∈ table, (p.2).next = some z)
    (hz : hasKey table z = false)
    (hz2 : pyUpper (pyStrip z) ≠ "END") :
    loadScript raw = Except.ok ⟨table, pyOr raw.meta_start (firstId l)⟩ ∧
    resolveTargetId table z = Except.error ("找不到節點：" ++ z) := by
  constructor
  · simp [loadScript, hn, hb, hs]
  · simp [resolveTargetId, hz, hz2]

/-- Witness for C7: a one-node script whose `next` dangles. -/
theorem dangling_next_lazy_error_witness :
    loadScript ⟨some "a", NodesField.items [RawNode.dict (some "a") { next := some "Z" }]⟩ =
      Except.ok ⟨[("a", { next := some "Z" })], "a"⟩ ∧
    resolveTargetId [("a", { next := some "Z" })] "Z" =
      Except.error ("找不到節點：" ++ "Z") :=
  dangling_next_lazy_error _ [RawNode.dict (some "a") { next := some "Z" }]
    [("a", { next := some "Z" })] "Z" (by rfl) (by rfl) (by rfl)
    ⟨("a", { next := some "Z" }), by decide, by rfl⟩ (by rfl) (by decide)

/-- C9: resolution of the terminal target at the transition interface is
case- and whitespace-insensitive: any target absent from the table whose
stripped upper-cased form is `"END"` synthesizes the sentinel instead of
raising, and `_transition_to_node` therefore succeeds from any current
node other than the sentinel slot itself. -/
theorem end_alias_resolution (nodes : List (String × NodeBody)) (target cur : String)
    (cn : NodeBody) (h1 : hasKey nodes target = false)
    (h2 : pyUpper (pyStrip target) = "END")
    (hc : lookupKey nodes cur = some cn) (hcne : cur ≠ "__END__") :
    resolveTargetId nodes target = Except.ok (_set_virtual_end nodes, "__END__") ∧
    ∃ effects, _transition_to_node nodes cur target false =
      Except.ok (_set_virtual_end nodes, effects) := by
  have hres : resolveTargetId nodes target =
      Except.ok (_set_virtual_end nodes, "__END__") := by
    simp [resolveTargetId, h1, h2]
  refine ⟨hres, ?_⟩
  have hc2 : lookupKey (_set_virtual_end nodes) cur = some cn := by
    unfold _set_virtual_end
    rw [lookupKey_setKey_ne _ _ _ _ hcne]
    exact hc
  have htgt : lookupKey (_set_virtual_end nodes) "__END__" = some virtualEndNode :=
    lookupKey_setKey_self _ _ _
  cases hbg : (_resolve_bg_path_from_node cn != _resolve_bg_path_from_node virtualEndNode) with
  | true =>
    refine ⟨[Effect.fadeOut, Effect.goTo "__END__", Effect.fadeIn], ?_⟩
    simp [_transition_to_node, hres, hc2, htgt, hbg]
  | false =>
    refine ⟨[Effect.goTo "__END__"], ?_⟩
    simp [_transition_to_node, hres, hc2, htgt, hbg]

/-- Witness for C9 at the target `" End "`. -/
theorem end_alias_resolution_witness :
    resolveTargetId [("a", {})] " End " =
      Except.ok ([("a", {}), ("__END__", virtualEndNode)], "__END__") ∧
    ∃ effects, _transition_to_node [("a", {})] "a" " End " false =
      Except.ok ([("a", {}), ("__END__", virtualEndNode)], effects) :=
  end_alias_resolution [("a", {})] " End " "a" {} (by rfl) (by decide) (by rfl) (by decide)

/-- C10: on a transition to a node that declares no `bg`, the stored
background path survives both the `goto` reset and the `bg` assignment at
the top of `next_step`, while every other presentation field is reset. -/
theorem bg_survives_transition (nodes : List (String × NodeBody)) (st : EngineState)
    (node_id : String) (node : NodeBody)
    (h : lookupKey nodes node_id = some node) (hbg : node.bg = none) :
    goto nodes st node_id = Except.ok (gotoState st node_id) ∧
    (gotoState st node_id).bg_path = st.bg_path ∧
    (applyBg node (gotoState st node_id)).bg_path = st.bg_path ∧
    (gotoState st node_id).node_id = node_id ∧
    (gotoState st node_id).current_name = "" ∧
    (gotoState st node_id).current_text = "" ∧
    (gotoState st node_id)._full_text = "" ∧
    (gotoState st node_id)._shown_len = 0 ∧
    (gotoState st node_id)._typing = false ∧
    (gotoState st node_id)._type_acc = 0 ∧
    (gotoState st node_id).choice_active = false ∧
    (gotoState st node_id).choice_prompt = "" ∧
    (gotoState st node_id).choice_options = [] ∧
    (gotoState st node_id).choice_hover = -1 ∧
    (gotoState st node_id).current_chars = [] ∧
    (gotoState st node_id)._bounce_name = none ∧
    (gotoState st node_id)._bounce_t = 0 := by
  refine ⟨?_, ?_, ?_, rfl, rfl, rfl, rfl, rfl, rfl, rfl, rfl, rfl, rfl, rfl, rfl, rfl, rfl⟩
  · simp [goto, hasKey, h]
  · rfl
  · simp [applyBg, hbg, gotoState]

/-- Witness for C10 on a concrete state carrying a background. -/
theorem bg_survives_transition_witness :
    goto [("b", {})] { initState "a" with bg_path := some "bg/room.png" } "b" =
      Except.ok (gotoState { initState "a" with bg_path := some "bg/room.png" } "b") ∧
    (gotoState { initState "a" with bg_path := some "bg/room.png" } "b").bg_path =
      some "bg/room.png" := by
  have h := bg_survives_transition [("b", {})]
    { initState "a" with bg_path := some "bg/room.png" } "b" {} (by rfl) (by rfl)
  exact ⟨h.1, h.2.1⟩

/-- C8 counterexample: with speaker name `" Alice "` and an on-stage
character named `"Alice"`, the code starts a bounce (it compares stripped
names), although the raw speaker name does not case-sensitively equal any
on-stage character's name — so the claimed "if and only if" fails. -/
theorem bounce_strip_counterexample :
    (_start_bounce_if_needed { initState "n" with
        current_name := " Alice ",
        current_chars := [{ name := some "Alice" }] })._bounce_name = some "Alice" ∧
    " Alice " ≠ "" ∧
    (¬ ∃ c ∈ [({ name := some "Alice" } : CharEntry)],
      (c.name.getD "") = " Alice ") :=
  ⟨by rfl, by decide, by decide⟩

/-- C8 as amended: the bounce comparisons are made on whitespace-stripped
names — the bounce starts iff the stripped speaker name is non-empty, its
upper-cased form is not `"NARRATOR"`, and it case-sensitively equals the
stripped name of some on-stage character. -/
theorem bounce_targeting_stripped (st : EngineState) :
    (_start_bounce_if_needed st)._bounce_name ≠ none ↔
      (pyStrip st.current_name ≠ "" ∧
        pyUpper (pyStrip st.current_name) ≠ "NARRATOR" ∧
        ∃ c ∈ st.current_chars,
          pyStrip (c.name.getD "") = pyStrip st.current_name) := by
  unfold _start_bounce_if_needed
  by_cases h1 : pyStrip st.current_name = "" ∨ pyUpper (pyStrip st.current_name) = "NARRATOR"
  · rw [if_pos h1]
    simp only [ne_eq, not_true_eq_false]
    constructor
    · intro hcontra
      exact hcontra.elim
    · rintro ⟨ha, hb, -⟩
      rcases h1 with h1 | h1
      · exact absurd h1 ha
      · exact absurd h1 hb
  · rw [if_neg h1]
    push_neg at h1
    by_cases h2 : st.current_chars.any
        (fun c => pyStrip (c.name.getD "") == pyStrip st.current_name) = true
    · rw [if_pos h2]
      simp only [List.any_eq_true, beq_iff_eq] at h2
      simp only [ne_eq, reduceCtorEq, not_false_eq_true, true_iff]
      exact ⟨h1.1, h1.2, h2⟩
    · rw [if_neg h2]
      simp only [List.any_eq_true, beq_iff_eq] at h2
      simp only [ne_eq, not_true_eq_false, false_iff, not_and]
      intro _ _
      exact h2

/-- C2: for a non-`end` node declaring a valid minigame id, `next_step` is
independent of the boolean the minigame run returns, and in both runs it
fades out, invokes the minigame, then forces a transition to the node's
truthy `next` when present, or else fades back in on the same node. -/
theorem minigame_result_not_consulted (nodes : List (String × NodeBody))
    (st : EngineState) (node : NodeBody) (mg : Int) (mg_id : String)
    (hnode : lookupKey nodes st.node_id = some node)
    (hkind : nodeKind node ≠ "end")
    (hmg : node.goto_minigame = some mg)
    (hmap : mg_map mg = some mg_id) :
    (∀ b1 b2 : Bool, next_step nodes b1 st = next_step nodes b2 st) ∧
    ∀ b : Bool, next_step nodes b st =
      Except.ok (applyBg node { st with current_chars := node.ch.getD [] },
        match node.next with
        | some nxt =>
          if nxt = "" then [Effect.fadeOut, Effect.invokeMinigame mg_id, Effect.fadeIn]
          else [Effect.fadeOut, Effect.invokeMinigame mg_id, Effect.transitionTo nxt true]
        | none => [Effect.fadeOut, Effect.invokeMinigame mg_id, Effect.fadeIn]) := by
  constructor
  · intro b1 b2
    rfl
  · intro b
    simp only [next_step, hnode, hmg, hmap]
    rw [if_neg hkind]
    cases hnx : node.next with
    | none => rfl
    | some nxt =>
      by_cases he : nxt = "" <;> simp [he]

/-- Witness for C2: a minigame node with `next = "c3"`, both oracle values. -/
theorem minigame_result_not_consulted_witness :
    next_step [("m", { goto_minigame := some 2, next := some "c3" })] true (initState "m") =
      next_step [("m", { goto_minigame := some 2, next := some "c3" })] false
        (initState "m") ∧
    next_step [("m", { goto_minigame := some 2, next := some "c3" })] true (initState "m") =
      Except.ok (applyBg { goto_minigame := some 2, next := some "c3" }
          { initState "m" with current_chars := [] },
        [Effect.fadeOut, Effect.invokeMinigame "mg2", Effect.transitionTo "c3" true]) := by
  have h := minigame_result_not_consulted
    [("m", { goto_minigame := some 2, next := some "c3" })] (initState "m")
    { goto_minigame := some 2, next := some "c3" } 2 "mg2"
    (by rfl) (by decide) (by rfl) (by rfl)
  exact ⟨h.1 true false, h.2 true⟩

/-- C3 counterexample: a document whose only node is a `choice`-kind node
with no `choices` key loads successfully — `Script.__init__` performs no
choice validation, so no format error is raised at load time. -/
theorem choice_validation_not_at_load :
    loadScript ⟨some "c", NodesField.items [RawNode.dict (some "c") { type := some "choice" }]⟩ =
      Except.ok ⟨[("c", { type := some "choice" })], "c"⟩ := by rfl

/-- C3 as amended: loading a script containing a `choice` node whose
`choices` is missing, not a list, or an empty list succeeds; the
`ValueError` is raised only when that node is activated by `next_step`. -/
theorem choice_validation_at_activation (raw : RawDoc) (l : List RawNode)
    (table : List (String × NodeBody)) (st : EngineState) (node : NodeBody) (b : Bool)
    (hn : raw.nodes = NodesField.items l)
    (hb : buildTable l [] = some table)
    (hs : hasKey table (pyOr raw.meta_start (firstId l)) = true)
    (hnode : lookupKey table st.node_id = some node)
    (hkind : nodeKind node = "choice")
    (hmg : node.goto_minigame = none)
    (hbad : node.choices = ChoicesField.absent ∨ node.choices = ChoicesField.notList ∨
      node.choices = ChoicesField.items []) :
    loadScript raw = Except.ok ⟨table, pyOr raw.meta_start (firstId l)⟩ ∧
    next_step table b st =
      Except.error ("choice 節點 " ++ st.node_id ++ " choices 必須是 list 且不可為空") := by
  constructor
  · simp [loadScript, hn, hb, hs]
  · simp only [next_step, hnode, hmg, hkind]
    rcases hbad with hbad | hbad | hbad <;> simp [hbad]

/-- Witness for C3 (amended) on the one-choice-node document. -/
theorem choice_validation_at_activation_witness :
    loadScript ⟨some "c", NodesField.items [RawNode.dict (some "c") { type := some "choice" }]⟩ =
      Except.ok ⟨[("c", { type := some "choice" })], "c"⟩ ∧
    next_step [("c", { type := some "choice" })] true (initState "c") =
      Except.error ("choice 節點 " ++ "c" ++ " choices 必須是 list 且不可為空") :=
  choice_validation_at_activation
    ⟨some "c", NodesField.items [RawNode.dict (some "c") { type := some "choice" }]⟩
    [RawNode.dict (some "c") { type := some "choice" }]
    [("c", { type := some "choice" })] (initState "c") { type := some "choice" } true
    (by rfl) (by rfl) (by rfl) (by rfl) (by rfl) (by rfl) (Or.inl rfl)

theorem typingInv_start (rate : ℚ) (st0 : EngineState) (text : String) :
    TypingInv rate 0 (_start_typing st0 text) := by
  refine ⟨by simp [_start_typing], fun _ => ⟨by simp [_start_typing], ?_⟩, fun hf => ?_⟩
  · simp [_start_typing]
  · simp [_start_typing] at hf

theorem typingInv_step {rate T d : ℚ} {st : EngineState} (hr : 0 < rate) (hd : 0 ≤ d)
    (h : TypingInv rate T st) :
    TypingInv rate (T + d) (_update_typing_at rate st d) ∧
    (_update_typing_at rate st d)._full_text = st._full_text ∧
    st._shown_len ≤ (_update_typing_at rate st d)._shown_len := by
  obtain ⟨hlen, htyp, hstop⟩ := h
  have hTle : rate * T ≤ rate * (T + d) :=
    mul_le_mul_of_nonneg_left (by linarith) hr.le
  have hmono : ⌊rate * T⌋ ≤ ⌊rate * (T + d)⌋ := Int.floor_mono hTle
  by_cases ht : st._typing = true
  case neg =>
    have hb : st._typing = false := by
      cases hbt : st._typing
      · rfl
      · exact absurd hbt ht
    have hupd : _update_typing_at rate st d = st := by
      unfold _update_typing_at
      rw [if_neg (by rw [hb]; exact Bool.false_ne_true)]
    rw [hupd]
    obtain ⟨hs1, hs2⟩ := hstop hb
    exact ⟨⟨hlen, fun htt => absurd htt ht, fun _ => ⟨hs1, le_trans hs2 hmono⟩⟩,
      rfl, le_refl _⟩
  case pos =>
    obtain ⟨hfl, hacc⟩ := htyp ht
    have hrne : rate ≠ 0 := ne_of_gt hr
    have haccval : (st._type_acc + d) * rate =
        rate * (T + d) - ((st._shown_len : ℤ) : ℚ) := by
      rw [hacc]
      push_cast
      field_simp
      ring
    have hslef : ((st._shown_len : ℤ) : ℚ) ≤ rate * T := by
      rw [hfl]
      exact Int.floor_le _
    have haccnn : 0 ≤ (st._type_acc + d) * rate := by
      rw [haccval]
      linarith
    have hpyint : pyInt ((st._type_acc + d) * rate) =
        ⌊rate * (T + d)⌋ - (st._shown_len : ℤ) := by
      rw [pyInt, if_pos haccnn, haccval, Int.floor_sub_int]
    have hupd : _update_typing_at rate st d =
        _update_typing_core rate st (st._type_acc + d)
          (⌊rate * (T + d)⌋ - (st._shown_len : ℤ)) := by
      unfold _update_typing_at
      rw [if_pos ht, hpyint]
    have hsF : (st._shown_len : ℤ) ≤ ⌊rate * (T + d)⌋ := hfl ▸ hmono
    by_cases hpos : 0 < ⌊rate * (T + d)⌋ - (st._shown_len : ℤ)
    case neg =>
      have hFs : ⌊rate * (T + d)⌋ = (st._shown_len : ℤ) := by omega
      have hcore : _update_typing_core rate st (st._type_acc + d)
          (⌊rate * (T + d)⌋ - (st._shown_len : ℤ)) =
          { st with _type_acc := st._type_acc + d } := by
        unfold _update_typing_core
        rw [if_neg hpos]
      rw [hupd, hcore]
      unfold TypingInv
      dsimp only
      refine ⟨⟨hlen, fun _ => ⟨by omega, by rw [hacc]; ring⟩, fun hff => ?_⟩, rfl, le_refl _⟩
      exact absurd (ht.symm.trans hff) (by decide)
    case pos =>
      have hcore : _update_typing_core rate st (st._type_acc + d)
          (⌊rate * (T + d)⌋ - (st._shown_len : ℤ)) =
          { st with
            _type_acc := (st._type_acc + d) -
              (((⌊rate * (T + d)⌋ - (st._shown_len : ℤ)) : ℤ) : ℚ) / rate
            _shown_len := min st._full_text.length
              (st._shown_len + (⌊rate * (T + d)⌋ - (st._shown_len : ℤ)).toNat)
            current_text := pyTake st._full_text (min st._full_text.length
              (st._shown_len + (⌊rate * (T + d)⌋ - (st._shown_len : ℤ)).toNat))
            _typing := decide
              (min st._full_text.length
                  (st._shown_len + (⌊rate * (T + d)⌋ - (st._shown_len : ℤ)).toNat) <
                st._full_text.length) } := by
        unfold _update_typing_core
        rw [if_pos hpos]
      have hj : ((st._shown_len +
          (⌊rate * (T + d)⌋ - (st._shown_len : ℤ)).toNat : ℕ) : ℤ) =
          ⌊rate * (T + d)⌋ := by omega
      rw [hupd, hcore]
      unfold TypingInv
      dsimp only
      refine ⟨⟨Nat.min_le_left _ _, ?_, ?_⟩, rfl, by omega⟩
      · intro h2
        have hlt := of_decide_eq_true h2
        have hminj : min st._full_text.length
            (st._shown_len + (⌊rate * (T + d)⌋ - (st._shown_len : ℤ)).toNat) =
            st._shown_len + (⌊rate * (T + d)⌋ - (st._shown_len : ℤ)).toNat := by
          omega
        constructor
        · omega
        · rw [hacc, hminj]
          have hjq : ((st._shown_len +
              (⌊rate * (T + d)⌋ - (st._shown_len : ℤ)).toNat : ℕ) : ℚ) =
              ((⌊rate * (T + d)⌋ : ℤ) : ℚ) := by
            exact_mod_cast congrArg (fun z => ((z : ℤ) : ℚ)) hj
          rw [hjq]
          push_cast
          field_simp
          ring
      · intro h3
        have hge := of_decide_eq_false h3
        constructor
        · omega
        · omega

theorem typingInv_foldl {rate : ℚ} (hr : 0 < rate) (ds : List ℚ) :
    ∀ (T : ℚ) (st : EngineState), TypingInv rate T st → (∀ d ∈ ds, 0 ≤ d) →
    TypingInv rate (T + ds.sum) (ds.foldl (_update_typing_at rate) st) ∧
    (ds.foldl (_update_typing_at rate) st)._full_text = st._full_text := by
  induction ds with
  | nil =>
    intro T st h _
    constructor
    · simpa using h
    · rfl
  | cons d ds ih =>
    intro T st h hd
    have h1 := typingInv_step hr (hd d (List.mem_cons_self d ds)) h
    have h2 := ih (T + d) (_update_typing_at rate st d) h1.1
      (fun x hx => hd x (List.mem_cons_of_mem d hx))
    constructor
    · have heq : T + (d :: ds).sum = (T + d) + ds.sum := by
        rw [List.sum_cons]; ring
      rw [heq, List.foldl_cons]
      exact h2.1
    · rw [List.foldl_cons, h2.2, h1.2.1]

theorem typingStates_head (rate : ℚ) (st : EngineState) (ds : List ℚ) :
    (typingStates rate st ds).head? = some st := by
  cases ds <;> rfl

theorem typing_chain {rate : ℚ} (hr : 0 < rate) (ds : List ℚ) :
    ∀ (T : ℚ) (st : EngineState), TypingInv rate T st → (∀ d ∈ ds, 0 ≤ d) →
    List.Chain' (· ≤ ·) ((typingStates rate st ds).map EngineState._shown_len) ∧
    ∀ s ∈ typingStates rate st ds,
      s._shown_len ≤ s._full_text.length ∧ s._full_text = st._full_text := by
  induction ds with
  | nil =>
    intro T st h _
    refine ⟨by simp [typingStates], ?_⟩
    intro s hs
    simp only [typingStates, List.mem_singleton] at hs
    subst hs
    exact ⟨h.1, rfl⟩
  | cons d ds ih =>
    intro T st h hd
    have h1 := typingInv_step hr (hd d (List.mem_cons_self d ds)) h
    have ih2 := ih (T + d) (_update_typing_at rate st d) h1.1
      (fun x hx => hd x (List.mem_cons_of_mem d hx))
    constructor
    · simp only [typingStates, List.map_cons]
      rw [List.chain'_cons']
      refine ⟨?_, ih2.1⟩
      intro y hy
      rw [List.head?_map, typingStates_head] at hy
      have hy2 : some ((_update_typing_at rate st d)._shown_len) = some y := hy
      injection hy2 with hy3
      rw [← hy3]
      exact h1.2.2
    · intro s hs
      simp only [typingStates] at hs
      rcases List.mem_cons.mp hs with hs | hs
      · subst hs
        exact ⟨h.1, rfl⟩
      · have hm := ih2.2 s hs
        exact ⟨hm.1, hm.2.trans h1.2.1⟩

theorem typing_shown_closed {rate T : ℚ} {st : EngineState} (h : TypingInv rate T st) :
    st._shown_len = min st._full_text.length (Int.toNat ⌊rate * T⌋) := by
  obtain ⟨hlen, htyp, hstop⟩ := h
  cases hb : st._typing
  · obtain ⟨h1, h2⟩ := hstop hb
    omega
  · obtain ⟨h1, h2⟩ := htyp hb
    omega

/-- C4 (typewriter monotonicity and completion): for every text, every
positive reveal rate and every finite sequence of non-negative frame
deltas whose sum is at least `len(text)/rate`, the revealed lengths along
the run are non-decreasing, never exceed the text length, and the final
state shows the whole text. -/
theorem typewriter_monotone_complete (text : String) (rate : ℚ) (st0 : EngineState)
    (ds : List ℚ) (hr : 0 < rate) (hd : ∀ d ∈ ds, 0 ≤ d)
    (hsum : (text.length : ℚ) / rate ≤ ds.sum) :
    List.Chain' (· ≤ ·)
      ((typingStates rate (_start_typing st0 text) ds).map EngineState._shown_len) ∧
    (∀ s ∈ typingStates rate (_start_typing st0 text) ds,
      s._shown_len ≤ text.length) ∧
    (ds.foldl (_update_typing_at rate) (_start_typing st0 text))._shown_len =
      text.length := by
  have hinv0 := typingInv_start rate st0 text
  have hfold := typingInv_foldl hr ds 0 (_start_typing st0 text) hinv0 hd
  have hchain := typing_chain hr ds 0 (_start_typing st0 text) hinv0 hd
  refine ⟨hchain.1, ?_, ?_⟩
  · intro s hs
    have hm := hchain.2 s hs
    have hft : s._full_text = text := hm.2
    calc s._shown_len ≤ s._full_text.length := hm.1
    _ = text.length := by rw [hft]
  · have hchar := typing_shown_closed hfold.1
    have hft : (ds.foldl (_update_typing_at rate) (_start_typing st0 text))._full_text =
        text := hfold.2
    rw [hchar, hft]
    have h1 : (text.length : ℚ) ≤ rate * ds.sum := by
      rw [div_le_iff₀ hr] at hsum
      linarith
    have h2 : (text.length : ℤ) ≤ ⌊rate * (0 + ds.sum)⌋ := by
      rw [zero_add]
      exact Int.le_floor.mpr (by push_cast; linarith)
    omega

/-- Witness for C4: the two-character text `"ab"` at rate 40 is fully
revealed by a single frame of 1/20 s. -/
theorem typewriter_monotone_complete_witness :
    (0 : ℚ) < 40 ∧
    ([(1:ℚ)/20].foldl (_update_typing_at 40) (_start_typing (initState "w") "ab"))._shown_len
      = "ab".length := by
  have hd : ∀ d ∈ [(1:ℚ)/20], 0 ≤ d := by
    intro d hdm
    rw [List.mem_singleton] at hdm
    subst hdm
    norm_num
  have hs : (("ab".length : ℕ) : ℚ) / 40 ≤ [(1:ℚ)/20].sum := by
    have hl : "ab".length = 2 := rfl
    rw [hl]
    simp only [List.sum_cons, List.sum_nil]
    norm_num
  exact ⟨by norm_num,
    (typewriter_monotone_complete "ab" 40 (initState "w") [(1:ℚ)/20]
      (by norm_num) hd hs).2.2⟩

/-- C5 (fractional accumulator, no drift): for every text, positive rate
and sequence of non-negative frame deltas, folding the typewriter update
over the deltas reveals exactly as many characters as a single update with
the summed delta. -/
theorem typewriter_no_drift (text : String) (rate : ℚ) (st0 : EngineState) (ds : List ℚ)
    (hr : 0 < rate) (hd : ∀ d ∈ ds, 0 ≤ d) :
    (ds.foldl (_update_typing_at rate) (_start_typing st0 text))._shown_len =
      (_update_typing_at rate (_start_typing st0 text) ds.sum)._shown_len := by
  have hinv0 := typingInv_start rate st0 text
  have hfold := typingInv_foldl hr ds 0 (_start_typing st0 text) hinv0 hd
  have hsum0 : 0 ≤ ds.sum := List.sum_nonneg hd
  have hstep := typingInv_step hr hsum0 hinv0
  have hc1 := typing_shown_closed hfold.1
  have hc2 := typing_shown_closed hstep.1
  rw [hc1, hc2, hfold.2, hstep.2.1]

/-- Witness for C5: four frames of 1/160 s reveal exactly as much of
`"abcd"` at rate 40 as one frame of 1/40 s. -/
theorem typewriter_no_drift_witness :
    (0 : ℚ) < 40 ∧
    ([(1:ℚ)/160, 1/160, 1/160, 1/160].foldl (_update_typing_at 40)
        (_start_typing (initState "w") "abcd"))._shown_len =
      (_update_typing_at 40 (_start_typing (initState "w") "abcd")
        ([(1:ℚ)/160, 1/160, 1/160, 1/160].sum))._shown_len := by
  have hd : ∀ d ∈ [(1:ℚ)/160, 1/160, 1/160, 1/160], 0 ≤ d := by
    intro d hdm
    fin_cases hdm <;> norm_num
  exact ⟨by norm_num,
    typewriter_no_drift "abcd" 40 (initState "w") [(1:ℚ)/160, 1/160, 1/160, 1/160]
      (by norm_num) hd⟩
